import Mathlib

/-!
Shallow embedding of the anim5s coordination server (src/unnamed/part_001,
the V45 server).  JavaScript `Map`s are modelled as association lists in
insertion order (`Map.set` replaces in place or appends, `Map.get` finds the
unique entry, `Map.delete` filters); `Date.now()` is threaded as an explicit
`Nat` parameter `t`; `Math.random()` outcomes (minted ids, tokens, random
themes) are explicit parameters.  Strings are Lean `String`s; the JS string
operations used by the server (trim / toUpperCase / startsWith / length on
ASCII data) are re-implemented on the character list so that every
definition evaluates inside the kernel.
-/

namespace Anim5s

/-- JS `Map.prototype.get`: the value of the unique entry with the given key. -/
def mapGet {κ α : Type} [DecidableEq κ] (m : List (κ × α)) (k : κ) : Option α :=
  (m.find? (fun e => e.1 = k)).map (fun e => e.2)

/-- JS `Map.prototype.set`: replace the value in place if the key is present,
else append the new entry (insertion order is preserved). -/
def mapSet {κ α : Type} [DecidableEq κ] (m : List (κ × α)) (k : κ) (v : α) :
    List (κ × α) :=
  if (m.find? (fun e => e.1 = k)).isSome then
    m.map (fun e => if e.1 = k then (k, v) else e)
  else
    m ++ [(k, v)]

/-- JS `Map.prototype.delete`: remove the entry with the given key. -/
def mapDelete {κ α : Type} [DecidableEq κ] (m : List (κ × α)) (k : κ) :
    List (κ × α) :=
  m.filter (fun e => ¬ e.1 = k)

/-- JS `String.prototype.startsWith`. -/
def strStartsWith (s p : String) : Bool :=
  p.data.isPrefixOf s.data

/-- Whitespace test used by JS `String.prototype.trim` (ASCII subset). -/
def isWsChar (c : Char) : Bool :=
  c = ' ' ∨ c = '\t' ∨ c = '\n' ∨ c = '\r'

/-- JS `String.prototype.trim`. -/
def trimChars (s : String) : String :=
  String.mk (((s.data.dropWhile isWsChar).reverse.dropWhile isWsChar).reverse)

/-- JS `String.prototype.toUpperCase` on one ASCII character. -/
def jsToUpperChar (c : Char) : Char :=
  if 'a' ≤ c ∧ c ≤ 'z' then Char.ofNat (c.toNat - 32) else c

/-- JS `String.prototype.toUpperCase`. -/
def jsToUpper (s : String) : String :=
  String.mk (s.data.map jsToUpperChar)

/-- A character of the room-id alphabet `[A-Z0-9]`. -/
def isRoomIdChar (c : Char) : Bool :=
  ('A' ≤ c ∧ c ≤ 'Z') ∨ ('0' ≤ c ∧ c ≤ '9')

/-- `normalizeRoomId` (line 142): trim, upper-case, match `^[A-Z0-9]{6,12}$`,
empty string on failure. -/
def normalizeRoomId (x : String) : String :=
  let id := jsToUpper (trimChars x)
  if 6 ≤ id.length ∧ id.length ≤ 12 ∧ id.data.all isRoomIdChar then id else ""

/-- `validatePngDataUrl` (line 148): a string starting with `data:image/` of
length at most 1,500,000. -/
def validatePngDataUrl (s : String) : Bool :=
  strStartsWith s "data:image/" && s.length ≤ 1500000

/-- The digit characters of `Number.prototype.toString(36)`. -/
def base36Char (d : Fin 36) : Char :=
  if d.val < 10 then Char.ofNat (48 + d.val) else Char.ofNat (97 + (d.val - 10))

/-- The fractional digits of `Math.random().toString(36)` rendered as a
string: `x.toString(36)` is `"0." ++ digits` (just `"0"` when the value is 0,
modelled by the empty digit list), so `slice(2)` is exactly the digit list. -/
def frac36String (ds : List (Fin 36)) : String :=
  String.mk (ds.map base36Char)

/-- `id7` (line 138): `Math.random().toString(36).slice(2,9).toUpperCase()` —
the first (at most) seven base-36 fraction digits, upper-cased.  `ds` is the
digit expansion of the random value. -/
def id7 (ds : List (Fin 36)) : String :=
  String.mk (((ds.map base36Char).take 7).map jsToUpperChar)

/-- `token` (line 139): two base-36 fraction expansions joined by `"-"`. -/
def token (ds1 ds2 : List (Fin 36)) : String :=
  frac36String ds1 ++ "-" ++ frac36String ds2

/-- `RESERVATION_MS` (line 74, default). -/
def RESERVATION_MS : Nat := 180000

/-- One reservation value `{frameIndex, expiresAt}`. -/
structure Reservation where
  frameIndex : Nat
  expiresAt : Nat
deriving Repr, DecidableEq

/-- The in-memory room object (lines 322-332 / 490-500). -/
structure Room where
  roomId : String
  theme : String
  frames : List (Option String)
  committed : List Bool
  createdAt : Nat
  updatedAt : Nat
  phase : String
  reservations : List (String × Reservation)
  reservedByFrame : List (Nat × String)
deriving Repr, DecidableEq

/-- One iteration of the `cleanupReservations` loop body (lines 288-300),
acting on the current `(reservations, reservedByFrame)` pair; `committed`
does not change during the loop. -/
def cleanupStep (t : Nat) (committed : List Bool)
    (st : List (String × Reservation) × List (Nat × String))
    (e : String × Reservation) :
    List (String × Reservation) × List (Nat × String) :=
  let tok := e.1
  let r := e.2
  let fi := r.frameIndex
  let expired := r.expiresAt ≤ t
  let invalid := ¬ fi < 60
  let comm := if invalid then false else committed.getD fi false
  if expired ∨ comm = true ∨ invalid then
    let resv := mapDelete st.1 tok
    let rbf :=
      if invalid then st.2
      else
        match mapGet st.2 fi with
        | some curTok => if curTok = tok then mapDelete st.2 fi else st.2
        | none => st.2
    (resv, rbf)
  else st

/-- `cleanupReservations` (line 286): iterate over the entries present at
entry to the loop (deleting an entry never removes a not-yet-visited one,
since `Map` keys are unique). -/
def cleanupReservations (t : Nat) (room : Room) : Room :=
  let st := room.reservations.foldl (cleanupStep t room.committed)
      (room.reservations, room.reservedByFrame)
  { room with reservations := st.1, reservedByFrame := st.2 }

/-- `normalizePhase` (line 305): `PLAYBACK` iff `committed.every(Boolean)`. -/
def normalizePhase (room : Room) : Room :=
  if room.committed.all (fun b => b) then
    { room with phase := "PLAYBACK" }
  else
    { room with phase := "DRAWING" }

/-- The `room_state` payload (lines 510-520). -/
structure RoomStateP where
  roomId : String
  theme : String
  frameCount : Nat
  fps : Nat
  phase : String
  createdAt : Nat
  updatedAt : Nat
  filled : List Bool
  completed : Bool
deriving Repr, DecidableEq

/-- `roomState` (line 507): mutates the room (cleanup + normalize) and builds
the payload. -/
def roomStateF (t : Nat) (room0 : Room) : Room × RoomStateP :=
  let room := normalizePhase (cleanupReservations t room0)
  (room,
    { roomId := room.roomId
      theme := room.theme
      frameCount := 60
      fps := 12
      phase := room.phase
      createdAt := room.createdAt
      updatedAt := room.updatedAt
      filled := room.committed
      completed := room.phase = "PLAYBACK" })

/-- `firstYoungestEmpty` (line 523): sweeps reservations, then returns the
smallest frame index that is neither committed nor reserved (`none` for the
JS `-1`). -/
def firstYoungestEmpty (t : Nat) (room0 : Room) : Room × Option Nat :=
  let room := cleanupReservations t room0
  (room,
    (List.range 60).find? (fun i =>
      ¬ room.committed.getD i false ∧ (mapGet room.reservedByFrame i).isNone))

/-- The on-disk room JSON (the object read by `deserializeRoom` and written
by `serializeRoom`).  Parsed numbers are modelled as `Nat` (the parse guards
reject non-finite and non-positive values); `0` models a missing/falsy
`createdAt`/`updatedAt`; `""` models a missing `roomId`/`theme`/`phase`. -/
structure RoomJson where
  roomId : String
  theme : String
  frames : Option (List (Option String))
  committed : Option (List Bool)
  createdAt : Nat
  updatedAt : Nat
  phase : String
  reservations : Option (List (String × Nat × Nat))
deriving Repr, DecidableEq

/-- `deserializeRoom` (line 314).  `t` is `now()`, `fb` the random theme that
`randTheme()` would return. -/
def deserializeRoom (t : Nat) (fb : String) (obj : RoomJson) : Option Room :=
  let roomId := normalizeRoomId obj.roomId
  if roomId = "" then none
  else
    let frames0 := (obj.frames.getD []).take 60
    let committed0 := (obj.committed.getD []).take 60
    let frames := frames0 ++ List.replicate (60 - frames0.length) none
    let committed := committed0 ++ List.replicate (60 - committed0.length) false
    let resv := (obj.reservations.getD []).foldl
      (fun m e =>
        let tok := e.1
        let fi := e.2.1
        let ex := e.2.2
        if tok = "" then m
        else if ¬ fi < 60 then m
        else if ex = 0 then m
        else mapSet m tok ⟨fi, ex⟩)
      []
    let rbf := resv.foldl
      (fun m e =>
        if committed.getD e.2.frameIndex false then m
        else mapSet m e.2.frameIndex e.1)
      []
    let room : Room :=
      { roomId := roomId
        theme := if trimChars obj.theme ≠ "" then trimChars obj.theme else fb
        frames := frames
        committed := committed
        createdAt := if obj.createdAt = 0 then t else obj.createdAt
        updatedAt := if obj.updatedAt = 0 then t else obj.updatedAt
        phase := if obj.phase = "" then "DRAWING" else obj.phase
        reservations := resv
        reservedByFrame := rbf }
    some (normalizePhase (cleanupReservations t room))

/-- `serializeRoom` (line 360): sweeps and normalizes the room, then builds
the persisted JSON object (`reservedByFrame` is not stored). -/
def serializeRoom (t : Nat) (room0 : Room) : Room × RoomJson :=
  let room := normalizePhase (cleanupReservations t room0)
  (room,
    { roomId := room.roomId
      theme := room.theme
      frames := some room.frames
      committed := some room.committed
      createdAt := room.createdAt
      updatedAt := room.updatedAt
      phase := room.phase
      reservations := some (room.reservations.map (fun e => (e.1, e.2.frameIndex, e.2.expiresAt))) })

/-- The rooms directory on disk: `roomId → persisted JSON`. -/
abbrev Disk : Type := List (String × RoomJson)

/-- `saveRoom` (line 418) on the room object and the rooms directory.  The
body runs `normalizePhase`, `cleanupReservations`, `updateIndexFromRoom`
(index not modelled here) and writes `JSON.stringify(serializeRoom(room))`
atomically; `w` is true when the write succeeds.  The surrounding
`try{...}catch(e){}` swallows a write failure, so the in-memory mutations
are kept either way and only the disk differs. -/
def saveRoomS (w : Bool) (t : Nat) (room0 : Room) (disk : Disk) : Room × Disk :=
  let room1 := cleanupReservations t (normalizePhase room0)
  let sr := serializeRoom t room1
  if w then (sr.1, mapSet disk sr.1.roomId sr.2) else (sr.1, disk)

/-- The in-memory effect of `saveRoom` alone. -/
def saveRoomMem (t : Nat) (room0 : Room) : Room :=
  (saveRoomS true t room0 []).1

/-- `makeRoom` (line 488).  `newId` is the `id7()` outcome, `fb` the
`randTheme()` outcome; the fresh room is installed in the cache (overwriting
any room already stored under `newId` — the source performs no collision
check) and saved. -/
def makeRoom (newId theme fb : String) (t : Nat) (cache : List (String × Room)) :
    Room × List (String × Room) :=
  let room : Room :=
    { roomId := newId
      theme := if trimChars theme ≠ "" then trimChars theme else fb
      frames := List.replicate 60 none
      committed := List.replicate 60 false
      createdAt := t
      updatedAt := t
      phase := "DRAWING"
      reservations := []
      reservedByFrame := [] }
  let room := saveRoomMem t room
  (room, mapSet cache newId room)

/-- Outbound envelopes relevant to the verified handlers (`v:1` and `ts` are
the same for every envelope of one handler invocation and are elided; the
constructor is the `t` verb, the arguments the `data` fields). -/
inductive OutMsg where
  | error (message : String)
  | roomStateMsg (st : RoomStateP)
  | roomJoined (roomId theme : String) (assignedFrame : Nat)
      (reservationToken : String) (reservationExpiresAt : Nat)
      (filled : List Bool)
  | frameCommitted (roomId : String) (frameIndex : Nat)
  | submitted (roomId : String) (frameIndex : Nat)
  | startPlayback (roomId : String)
deriving Repr, DecidableEq

/-- The `submit_frame` branch (lines 1118-1179) from the point the room has
been resolved (the shared `normalizeRoomId` / quarantine / `getRoom`
preamble, lines 1107-1117, is modelled at store level in the join handlers).
`w1`/`w2` are the success of the two `saveRoom` disk writes; the returned
list collects every envelope sent (broadcasts and the point-to-point
`submitted`), in order. -/
def submitFrameS (w1 w2 : Bool) (t : Nat) (room0 : Room) (disk : Disk)
    (idx : Int) (tok d : String) : Room × Disk × List OutMsg :=
  let room := cleanupReservations t (normalizePhase room0)
  if room.phase ≠ "DRAWING" then
    (room, disk, [.error "この部屋は提出を受け付けていません（完成済み）"])
  else if idx < 0 ∨ 60 ≤ idx then
    (room, disk, [.error "frameIndex が不正"])
  else if tok = "" then
    (room, disk, [.error "reservationToken が必要"])
  else
    let i := idx.toNat
    match mapGet room.reservations tok with
    | none => (room, disk, [.error "予約が無効/期限切れです"])
    | some r =>
      if r.expiresAt ≤ t then
        (room, disk, [.error "予約が無効/期限切れです"])
      else if ¬ r.frameIndex = i then
        (room, disk, [.error "担当コマが一致しません"])
      else if room.committed.getD i false then
        (room, disk, [.error "すでに提出済みです"])
      else if ¬ validatePngDataUrl d then
        (room, disk, [.error "dataUrl が不正/大きすぎる"])
      else
        let room :=
          { room with
            frames := room.frames.set i (some d)
            committed := room.committed.set i true
            updatedAt := t
            reservations := mapDelete room.reservations tok
            reservedByFrame := mapDelete room.reservedByFrame i }
        let sv := saveRoomS w1 t room disk
        let room := sv.1
        let disk := sv.2
        let out := [OutMsg.frameCommitted room.roomId i, OutMsg.submitted room.roomId i]
        if room.committed.all (fun b => b) then
          let room := { room with phase := "PLAYBACK", updatedAt := t }
          let sv2 := saveRoomS w2 t room disk
          let rs := roomStateF t sv2.1
          (rs.1, sv2.2,
            out ++ [OutMsg.startPlayback rs.1.roomId, OutMsg.roomStateMsg rs.2])
        else (room, disk, out)

/-- Did the handler reply with the success envelope `submitted`? -/
def submitSucceeded (out : List OutMsg) : Bool :=
  out.any (fun m => match m with | .submitted _ _ => true | _ => false)

/-- The per-room part of `join_by_id` (lines 1006-1035), after the room has
been resolved: phase check, `firstYoungestEmpty`, reservation mint, save,
`room_joined` reply.  `mintTok` is the `token()` outcome; the index side of
`updateIndexFromRoom`/`saveIndex` is not modelled. -/
def joinByIdCore (t : Nat) (mintTok : String) (room0 : Room) : Room × OutMsg :=
  let room := normalizePhase room0
  if room.phase ≠ "DRAWING" then (room, .error "部屋が見つからない")
  else
    let fy := firstYoungestEmpty t room
    let room := fy.1
    match fy.2 with
    | none => (saveRoomMem t room, .error "空きコマがありません")
    | some idx =>
      let expiresAt := t + RESERVATION_MS
      let room :=
        { room with
          reservations := mapSet room.reservations mintTok ⟨idx, expiresAt⟩
          reservedByFrame := mapSet room.reservedByFrame idx mintTok
          updatedAt := t }
      let room := saveRoomMem t room
      let rs := roomStateF t room
      (rs.1,
        .roomJoined rs.1.roomId rs.1.theme idx mintTok expiresAt rs.2.filled)

/-- The `join_by_id` branch (lines 991-1036) at store level: `quar` is the
quarantine set, `store` the rooms reachable through `getRoom` (cache merged
with disk), `wsRoomId` the connection's current attachment.  Returns the new
attachment, the updated store and the reply. -/
def joinByIdH (t : Nat) (quar : List String) (store : List (String × Room))
    (wsRoomId dRoomId mintTok : String) :
    String × List (String × Room) × OutMsg :=
  let roomId := normalizeRoomId dRoomId
  if roomId = "" then (wsRoomId, store, .error "roomId が不正です")
  else if roomId ∈ quar then (wsRoomId, store, .error "部屋が見つからない")
  else
    match mapGet store roomId with
    | none => (wsRoomId, store, .error "部屋が見つからない")
    | some room0 =>
      let co := joinByIdCore t mintTok room0
      let att := match co.2 with
        | .roomJoined .. => co.1.roomId
        | _ => wsRoomId
      (att, mapSet store roomId co.1, co.2)

/-- The per-room part of `join_room` (lines 1051-1068), after the room has
been resolved (the attachment update at line 1050 happens in the caller):
optional editing checks, then `room_state`. -/
def joinRoomCore (t : Nat) (viewIsTrue : Bool) (rtok : String) (room0 : Room) :
    Room × OutMsg :=
  let room := normalizePhase room0
  if viewIsTrue = false ∧ rtok ≠ "" then
    if room.phase ≠ "DRAWING" then
      (room, .error "この部屋は編集できません（完成済み）")
    else
      let room := cleanupReservations t room
      match mapGet room.reservations rtok with
      | none => (room, .error "予約が無効/期限切れです。もう一度参加してね")
      | some r =>
        if r.expiresAt ≤ t then
          (room, .error "予約が無効/期限切れです。もう一度参加してね")
        else
          let rs := roomStateF t room
          (rs.1, .roomStateMsg rs.2)
  else
    let rs := roomStateF t room
    (rs.1, .roomStateMsg rs.2)

/-- The `join_room` branch (lines 1038-1068) at store level.  `viewIsTrue`
models `d.view === true`, `rtok` the (possibly empty) `d.reservationToken`.
Note that the source assigns `ws._roomId = room.roomId` (line 1050) as soon
as the room is resolved, before the editing checks. -/
def joinRoomH (t : Nat) (quar : List String) (store : List (String × Room))
    (wsRoomId dRoomId : String) (viewIsTrue : Bool) (rtok : String) :
    String × List (String × Room) × OutMsg :=
  let roomId := normalizeRoomId (if dRoomId ≠ "" then dRoomId else wsRoomId)
  if roomId = "" then (wsRoomId, store, .error "roomId が不正です")
  else if roomId ∈ quar then (wsRoomId, store, .error "部屋が見つからない")
  else
    match mapGet store roomId with
    | none => (wsRoomId, store, .error "部屋が見つからない")
    | some room0 =>
      let att := room0.roomId
      let co := joinRoomCore t viewIsTrue rtok room0
      (att, mapSet store roomId co.1, co.2)

/-- A dispatcher operation acting on an existing, already-resolved in-memory
room object: `submit_frame`, the reservation mint shared by `join_by_id` and
`join_random` (identical mutations, different error texts), `join_room`, and
`resync` (which mutates exactly through `roomState`); `hello` and
`get_frame` never mutate a room.  Deliberately *not* in this universe — and
therefore outside every theorem quantified over `Op` — are the two ways the
program replaces the room stored under a roomId wholesale:
`create_public_and_submit`, whose `makeRoom` performs no collision check and
on an `id7` collision overwrites the cached and persisted room under an
existing id, and the cache-evict-plus-reload path (`evictCache`, which drops
idle rooms with no dirty check, followed by `getRoom` deserializing the
on-disk file).  Both can reset `committed` entries for a roomId; see the C1
counterexample.  All `Math.random()`/`Date.now()` outcomes are carried by
the constructor. -/
inductive Op where
  | submitOp (t : Nat) (idx : Int) (tok d : String)
  | joinOp (t : Nat) (mintTok : String)
  | joinRoomOp (t : Nat) (viewIsTrue : Bool) (rtok : String)
  | resyncOp (t : Nat)

/-- The effect of one operation on the room's in-memory state. -/
def applyOp (room : Room) : Op → Room
  | .submitOp t idx tok d => (submitFrameS true true t room [] idx tok d).1
  | .joinOp t mintTok => (joinByIdCore t mintTok room).1
  | .joinRoomOp t viewIsTrue rtok => (joinRoomCore t viewIsTrue rtok room).1
  | .resyncOp t => (roomStateF t room).1

/-- A sequence of operations on one room. -/
def runOps (room : Room) (ops : List Op) : Room :=
  ops.foldl applyOp room

/-- Insertion step of the model of JS `Array.prototype.sort` (default
lexicographic string comparison). -/
def insertSorted (s : String) : List String → List String
  | [] => [s]
  | x :: xs => if s ≤ x then s :: x :: xs else x :: insertSorted s xs

/-- Model of JS `Array.prototype.sort()` on strings: a stable sort by the
lexicographic order. -/
def sortStrings (l : List String) : List String :=
  l.foldr insertSorted []

/-- `pruneBackups` (line 450) on the list of entries of `backups/`: sort the
non-hidden directory names, delete the first `length - keep` of them; the
result is the list of surviving backup directories. -/
def pruneBackups (keep : Nat) (names : List String) : List String :=
  let dirs := sortStrings (names.filter (fun n => ! strStartsWith n "."))
  dirs.drop (dirs.length - keep)

/-- One completed, non-empty backup cycle of `doBackup` (line 461): the
interval has elapsed and the dirty set is non-empty, so the cycle creates
`backups/<stamp>/`, copies the dirty rooms, clears the dirty set and prunes.
Only the effect on the set of backup directories is modelled. -/
def doBackupCycle (keep : Nat) (dirs : List String) (stamp : String) :
    List String :=
  pruneBackups keep (stamp :: dirs)

/-- A sequence of completed non-empty backup cycles starting from an empty
`backups/` directory. -/
def runBackups (keep : Nat) (stamps : List String) : List String :=
  stamps.foldl (doBackupCycle keep) []

/-! ### Invariants and helper lemmas -/

/-- The phase/committed coupling asserted by the specification: `phase` is
`"PLAYBACK"` exactly when every entry of `committed` is true. -/
def phaseOk (room : Room) : Prop :=
  room.phase = "PLAYBACK" ↔ room.committed.all (fun b => b) = true

/-- Every room of the running system carries exactly 60 committed slots. -/
def wfCommitted (room : Room) : Prop :=
  room.committed.length = 60

@[simp] theorem cleanup_committed (t : Nat) (room : Room) :
    (cleanupReservations t room).committed = room.committed := rfl

@[simp] theorem cleanup_phase (t : Nat) (room : Room) :
    (cleanupReservations t room).phase = room.phase := rfl

@[simp] theorem cleanup_roomId (t : Nat) (room : Room) :
    (cleanupReservations t room).roomId = room.roomId := rfl

@[simp] theorem normalizePhase_committed (room : Room) :
    (normalizePhase room).committed = room.committed := by
  unfold normalizePhase; split <;> rfl

@[simp] theorem normalizePhase_roomId (room : Room) :
    (normalizePhase room).roomId = room.roomId := by
  unfold normalizePhase; split <;> rfl

theorem normalizePhase_phase_playback (room : Room) :
    (normalizePhase room).phase = "PLAYBACK"
      ↔ room.committed.all (fun b => b) = true := by
  unfold normalizePhase
  split
  · simp [*]
  · simpa using by simp_all

theorem normalizePhase_phase_drawing (room : Room) :
    (normalizePhase room).phase = "DRAWING"
      ↔ room.committed.all (fun b => b) = false := by
  unfold normalizePhase
  split
  · simp_all
  · simp_all

theorem phaseOk_normalizePhase (room : Room) : phaseOk (normalizePhase room) := by
  unfold phaseOk
  rw [normalizePhase_committed]
  exact normalizePhase_phase_playback room

theorem phaseOk_of_fields {a b : Room}
    (hp : a.phase = b.phase) (hc : a.committed = b.committed)
    (h : phaseOk b) : phaseOk a := by
  unfold phaseOk at *
  rw [hp, hc]; exact h

@[simp] theorem saveRoomS_fst (w : Bool) (t : Nat) (room : Room) (disk : Disk) :
    (saveRoomS w t room disk).1
      = normalizePhase (cleanupReservations t
          (cleanupReservations t (normalizePhase room))) := by
  unfold saveRoomS serializeRoom
  split <;> rfl

@[simp] theorem saveRoomS_snd_false (t : Nat) (room : Room) (disk : Disk) :
    (saveRoomS false t room disk).2 = disk := by
  unfold saveRoomS serializeRoom
  rfl

@[simp] theorem saveRoomMem_eq (t : Nat) (room : Room) :
    saveRoomMem t room
      = normalizePhase (cleanupReservations t
          (cleanupReservations t (normalizePhase room))) := by
  unfold saveRoomMem
  exact saveRoomS_fst true t room []

@[simp] theorem saveRoomS_committed (w : Bool) (t : Nat) (room : Room) (disk : Disk) :
    (saveRoomS w t room disk).1.committed = room.committed := by
  rw [saveRoomS_fst]; simp

theorem phaseOk_saveRoomS (w : Bool) (t : Nat) (room : Room) (disk : Disk) :
    phaseOk (saveRoomS w t room disk).1 := by
  rw [saveRoomS_fst]; exact phaseOk_normalizePhase _

@[simp] theorem roomStateF_fst (t : Nat) (room : Room) :
    (roomStateF t room).1 = normalizePhase (cleanupReservations t room) := rfl

@[simp] theorem roomStateF_committed (t : Nat) (room : Room) :
    (roomStateF t room).1.committed = room.committed := by simp

theorem phaseOk_roomStateF (t : Nat) (room : Room) :
    phaseOk (roomStateF t room).1 := by
  rw [roomStateF_fst]; exact phaseOk_normalizePhase _

@[simp] theorem firstYoungestEmpty_fst (t : Nat) (room : Room) :
    (firstYoungestEmpty t room).1 = cleanupReservations t room := rfl

@[simp] theorem joinByIdCore_committed (t : Nat) (mintTok : String) (room : Room) :
    (joinByIdCore t mintTok room).1.committed = room.committed := by
  simp only [joinByIdCore]
  split
  · simp
  · split <;> simp

@[simp] theorem joinRoomCore_committed (t : Nat) (viewIsTrue : Bool) (rtok : String)
    (room : Room) :
    (joinRoomCore t viewIsTrue rtok room).1.committed = room.committed := by
  simp only [joinRoomCore]
  split
  · split
    · simp
    · split
      · simp
      · split <;> simp
  · simp

/-- Full branch analysis of the `submit_frame` write path: a `submitted`
success envelope is sent only when the frame index is in range, the target
frame is uncommitted, and the presented token is a live reservation recorded
for that frame; on success `committed[idx]` is set to true; and in every
case `committed` is either untouched or updated by that single true entry. -/
theorem submitFrameS_spec (w1 w2 : Bool) (t : Nat) (room0 : Room) (disk : Disk)
    (idx : Int) (tok d : String) :
    (submitSucceeded (submitFrameS w1 w2 t room0 disk idx tok d).2.2 = true →
      (0 ≤ idx ∧ idx < 60)
      ∧ room0.committed.getD idx.toNat false = false
      ∧ (∃ r, mapGet (cleanupReservations t (normalizePhase room0)).reservations tok
            = some r
          ∧ t < r.expiresAt ∧ r.frameIndex = idx.toNat)
      ∧ (submitFrameS w1 w2 t room0 disk idx tok d).1.committed
          = room0.committed.set idx.toNat true)
    ∧ ((submitFrameS w1 w2 t room0 disk idx tok d).1.committed = room0.committed
       ∨ (submitFrameS w1 w2 t room0 disk idx tok d).1.committed
           = room0.committed.set idx.toNat true) := by
  simp only [submitFrameS]
  split
  · exact ⟨fun h => by simp [submitSucceeded] at h, Or.inl (by simp)⟩
  · split
    · exact ⟨fun h => by simp [submitSucceeded] at h, Or.inl (by simp)⟩
    · split
      · exact ⟨fun h => by simp [submitSucceeded] at h, Or.inl (by simp)⟩
      · split
        · exact ⟨fun h => by simp [submitSucceeded] at h, Or.inl (by simp)⟩
        · next r heq =>
          split
          · exact ⟨fun h => by simp [submitSucceeded] at h, Or.inl (by simp)⟩
          · split
            · exact ⟨fun h => by simp [submitSucceeded] at h, Or.inl (by simp)⟩
            · split
              · exact ⟨fun h => by simp [submitSucceeded] at h, Or.inl (by simp)⟩
              · split
                · exact ⟨fun h => by simp [submitSucceeded] at h, Or.inl (by simp)⟩
                · rename_i hphase hidx htok hexp hmis hcomm hurl
                  constructor
                  · intro h
                    refine ⟨by omega, ?_, ⟨r, heq, by omega, not_not.mp hmis⟩, ?_⟩
                    · simp at hcomm
                      simpa using hcomm
                    · split <;> simp
                  · right
                    split <;> simp

/-- With both disk writes failing (the `try{...}catch(e){}` in `saveRoom`
swallowing the error), `submit_frame` never changes the rooms directory. -/
theorem submitFrameS_disk_unchanged (t : Nat) (room0 : Room) (disk : Disk)
    (idx : Int) (tok d : String) :
    (submitFrameS false false t room0 disk idx tok d).2.1 = disk := by
  simp only [submitFrameS]
  split
  · rfl
  · split
    · rfl
    · split
      · rfl
      · split
        · rfl
        · split
          · rfl
          · split
            · rfl
            · split
              · rfl
              · split
                · rfl
                · split <;> simp [saveRoomS]

theorem getD_set_true : ∀ (l : List Bool) (i j : Nat),
    l.getD i false = true → (l.set j true).getD i false = true
  | [], _, _ => by intro h; simp at h
  | _ :: l, i, 0 => by
    cases i with
    | zero => intro _; simp
    | succ i => intro h; simpa using h
  | b :: l, i, j + 1 => by
    cases i with
    | zero => intro h; simpa using h
    | succ i =>
      intro h
      simpa using getD_set_true l i j (by simpa using h)

/-- Every room-mutating handler either leaves `committed` unchanged or sets
a single entry to true (the source never writes `false` into `committed`). -/
theorem applyOp_committed (room : Room) (op : Op) :
    (applyOp room op).committed = room.committed
    ∨ ∃ j, (applyOp room op).committed = room.committed.set j true := by
  cases op with
  | submitOp t idx tok d =>
    rcases (submitFrameS_spec true true t room [] idx tok d).2 with h | h
    · exact Or.inl h
    · exact Or.inr ⟨idx.toNat, h⟩
  | joinOp t mintTok => exact Or.inl (by simp [applyOp])
  | joinRoomOp t v rtok => exact Or.inl (by simp [applyOp])
  | resyncOp t => exact Or.inl (by simp [applyOp])

/-- Commitment is monotone across every handler operation. -/
theorem applyOp_mono (room : Room) (op : Op) (i : Nat)
    (h : room.committed.getD i false = true) :
    (applyOp room op).committed.getD i false = true := by
  rcases applyOp_committed room op with hc | ⟨j, hc⟩
  · rw [hc]; exact h
  · rw [hc]; exact getD_set_true _ i j h

/-- Commitment is monotone across any sequence of handler operations. -/
theorem runOps_mono (ops : List Op) (room : Room) (i : Nat)
    (h : room.committed.getD i false = true) :
    (runOps room ops).committed.getD i false = true := by
  induction ops generalizing room with
  | nil => exact h
  | cons op ops ih => exact ih (applyOp room op) (applyOp_mono room op i h)

theorem phaseOk_cleanup_normalize (t : Nat) (room : Room) :
    phaseOk (cleanupReservations t (normalizePhase room)) :=
  phaseOk_of_fields (cleanup_phase t _) (cleanup_committed t _)
    (phaseOk_normalizePhase room)

theorem phaseOk_submitFrameS (w1 w2 : Bool) (t : Nat) (room0 : Room)
    (disk : Disk) (idx : Int) (tok d : String) :
    phaseOk (submitFrameS w1 w2 t room0 disk idx tok d).1 := by
  simp only [submitFrameS]
  split
  · exact phaseOk_cleanup_normalize t room0
  · split
    · exact phaseOk_cleanup_normalize t room0
    · split
      · exact phaseOk_cleanup_normalize t room0
      · split
        · exact phaseOk_cleanup_normalize t room0
        · split
          · exact phaseOk_cleanup_normalize t room0
          · split
            · exact phaseOk_cleanup_normalize t room0
            · split
              · exact phaseOk_cleanup_normalize t room0
              · split
                · exact phaseOk_cleanup_normalize t room0
                · split
                  · exact phaseOk_roomStateF t _
                  · exact phaseOk_saveRoomS _ t _ disk

theorem phaseOk_joinByIdCore (t : Nat) (mintTok : String) (room : Room) :
    phaseOk (joinByIdCore t mintTok room).1 := by
  simp only [joinByIdCore]
  split
  · exact phaseOk_normalizePhase room
  · split
    · rw [saveRoomMem_eq]; exact phaseOk_normalizePhase _
    · exact phaseOk_roomStateF t _

theorem phaseOk_joinRoomCore (t : Nat) (viewIsTrue : Bool) (rtok : String)
    (room : Room) :
    phaseOk (joinRoomCore t viewIsTrue rtok room).1 := by
  simp only [joinRoomCore]
  split
  · split
    · exact phaseOk_normalizePhase room
    · split
      · exact phaseOk_cleanup_normalize t room
      · split
        · exact phaseOk_cleanup_normalize t room
        · exact phaseOk_roomStateF t _
  · exact phaseOk_roomStateF t _

/-- After any handler operation the phase/committed coupling holds,
unconditionally: every mutating branch normalizes the phase before it
returns. -/
theorem phaseOk_applyOp (room : Room) (op : Op) : phaseOk (applyOp room op) := by
  cases op with
  | submitOp t idx tok d => exact phaseOk_submitFrameS true true t room [] idx tok d
  | joinOp t mintTok => exact phaseOk_joinByIdCore t mintTok room
  | joinRoomOp t v rtok => exact phaseOk_joinRoomCore t v rtok room
  | resyncOp t => exact phaseOk_roomStateF t room

/-- No handler operation changes the number of committed slots. -/
theorem applyOp_length (room : Room) (op : Op) :
    (applyOp room op).committed.length = room.committed.length := by
  rcases applyOp_committed room op with h | ⟨j, h⟩
  · rw [h]
  · rw [h]; exact List.length_set _ _ _

/-- A submission to an already-committed frame is never answered with the
success envelope. -/
theorem submit_committed_fails (w1 w2 : Bool) (t : Nat) (room : Room)
    (disk : Disk) (idx : Int) (tok d : String)
    (h : room.committed.getD idx.toNat false = true) :
    submitSucceeded (submitFrameS w1 w2 t room disk idx tok d).2.2 = false := by
  cases hs : submitSucceeded (submitFrameS w1 w2 t room disk idx tok d).2.2 with
  | false => rfl
  | true =>
    have := ((submitFrameS_spec w1 w2 t room disk idx tok d).1 hs).2.1
    rw [h] at this
    cases this

theorem getD_set_self_true : ∀ (l : List Bool) (j : Nat), j < l.length →
    (l.set j true).getD j false = true
  | [], j => by intro h; simp at h
  | _ :: l, 0 => by intro _; simp
  | b :: l, j + 1 => by
    intro h
    simpa using getD_set_self_true l j (by simpa using h)

/-! ### Concrete rooms used by witnesses and counterexamples -/

/-- A room in the middle of drawing with one live reservation for frame 0. -/
def roomW : Room :=
  { roomId := "ROOMAB1"
    theme := "走る犬"
    frames := List.replicate 60 none
    committed := List.replicate 60 false
    createdAt := 0
    updatedAt := 0
    phase := "DRAWING"
    reservations := [("TOKA", ⟨0, 100⟩)]
    reservedByFrame := [(0, "TOKA")] }

/-- A fully committed (playback) room. -/
def roomDone : Room :=
  { roomId := "ROOMAB1"
    theme := "走る犬"
    frames := List.replicate 60 (some "data:image/png;base64,AA")
    committed := List.replicate 60 true
    createdAt := 0
    updatedAt := 0
    phase := "PLAYBACK"
    reservations := []
    reservedByFrame := [] }

/-! ### Claims -/

/-- C1 (amended): exactly-once per frame holds for the lifetime of one
in-memory room object, not for the roomId across reloads.  A success
requires `committed[idx] = false` and a live reservation recorded for `idx`
presented under the supplied token; success sets `committed[idx] := true`;
and no dispatcher operation acting on that room object (submit, the join
reservation mint, `join_room`, `resync`) ever resets a committed entry, so
any later `submit_frame` against the same room object — at any time, with
any token, after any sequence of such operations — is rejected.  The
program-wide claim fails: a silently failed save followed by eviction and
reload from the stale file (and likewise an `id7`-collision overwrite by
`create_public_and_submit`) resets `committed[idx]` for the same roomId,
after which a second `submit_frame` succeeds — see the C1 counterexample
below. -/
theorem submit_frame_exactly_once (room : Room) (idx : Int) (t1 : Nat)
    (tok1 d1 : String)
    (h60 : room.committed.length = 60)
    (h1 : submitSucceeded (submitFrameS true true t1 room [] idx tok1 d1).2.2 = true) :
    room.committed.getD idx.toNat false = false
    ∧ (∃ r, mapGet (cleanupReservations t1 (normalizePhase room)).reservations tok1
          = some r ∧ t1 < r.expiresAt ∧ r.frameIndex = idx.toNat)
    ∧ (submitFrameS true true t1 room [] idx tok1 d1).1.committed.getD
        idx.toNat false = true
    ∧ ∀ (ops : List Op) (w1 w2 : Bool) (t2 : Nat) (tok2 d2 : String) (disk : Disk),
        submitSucceeded (submitFrameS w1 w2 t2
          (runOps (submitFrameS true true t1 room [] idx tok1 d1).1 ops)
          disk idx tok2 d2).2.2 = false := by
  obtain ⟨⟨hge, hlt⟩, hpre, hres, hset⟩ :=
    (submitFrameS_spec true true t1 room [] idx tok1 d1).1 h1
  have hafter : (submitFrameS true true t1 room [] idx tok1 d1).1.committed.getD
      idx.toNat false = true := by
    rw [hset]
    exact getD_set_self_true _ _ (by rw [h60]; omega)
  refine ⟨hpre, hres, hafter, ?_⟩
  intro ops w1 w2 t2 tok2 d2 disk
  exact submit_committed_fails w1 w2 t2 _ disk idx tok2 d2
    (runOps_mono ops _ idx.toNat hafter)

theorem submit_frame_exactly_once_witness :
    roomW.committed.getD (Int.toNat 0) false = false
    ∧ (∃ r, mapGet (cleanupReservations 0 (normalizePhase roomW)).reservations "TOKA"
          = some r ∧ 0 < r.expiresAt ∧ r.frameIndex = Int.toNat 0)
    ∧ (submitFrameS true true 0 roomW [] 0 "TOKA"
        "data:image/png;base64,AA").1.committed.getD (Int.toNat 0) false = true
    ∧ ∀ (ops : List Op) (w1 w2 : Bool) (t2 : Nat) (tok2 d2 : String) (disk : Disk),
        submitSucceeded (submitFrameS w1 w2 t2
          (runOps (submitFrameS true true 0 roomW [] 0 "TOKA"
            "data:image/png;base64,AA").1 ops)
          disk 0 tok2 d2).2.2 = false :=
  submit_frame_exactly_once roomW 0 0 "TOKA" "data:image/png;base64,AA"
    (by decide) (by decide)

theorem makeRoom_fst (newId theme fb : String) (t : Nat)
    (cache : List (String × Room)) :
    (makeRoom newId theme fb t cache).1.committed = List.replicate 60 false
    ∧ phaseOk (makeRoom newId theme fb t cache).1 := by
  constructor
  · simp [makeRoom]
  · simp only [makeRoom, saveRoomMem_eq]
    exact phaseOk_normalizePhase _

theorem deserializeRoom_phaseOk_wf (t : Nat) (fb : String) (obj : RoomJson)
    (room : Room) (h : deserializeRoom t fb obj = some room) :
    phaseOk room ∧ wfCommitted room := by
  simp only [deserializeRoom] at h
  split at h
  · exact Option.noConfusion h
  · have hr := Option.some.inj h
    constructor
    · rw [← hr]
      exact phaseOk_normalizePhase _
    · rw [wfCommitted, ← hr]
      simp only [normalizePhase_committed, cleanup_committed]
      rw [List.length_append, List.length_replicate]
      have hle : ((obj.committed.getD []).take 60).length ≤ 60 :=
        List.length_take_le 60 _
      omega

/-- C2: on every room reachable from a fresh room or from deserialization,
before and after any handler operation, the phase is `"PLAYBACK"` exactly
when all 60 entries of `committed` are true; `normalizePhase` sets the phase
to `"PLAYBACK"` exactly when `committed.every(Boolean)` holds and to
`"DRAWING"` otherwise; and every handler operation re-establishes the
coupling and preserves the 60-slot shape. -/
theorem phase_playback_iff_all_committed :
    (∀ room : Room,
        ((normalizePhase room).phase = "PLAYBACK"
          ↔ room.committed.all (fun b => b) = true)
      ∧ ((normalizePhase room).phase = "DRAWING"
          ↔ room.committed.all (fun b => b) = false))
    ∧ (∀ (newId theme fb : String) (t : Nat) (cache : List (String × Room)),
        phaseOk (makeRoom newId theme fb t cache).1
        ∧ wfCommitted (makeRoom newId theme fb t cache).1)
    ∧ (∀ (t : Nat) (fb : String) (obj : RoomJson) (room : Room),
        deserializeRoom t fb obj = some room → phaseOk room ∧ wfCommitted room)
    ∧ (∀ (room : Room) (op : Op),
        phaseOk (applyOp room op)
        ∧ (wfCommitted room → wfCommitted (applyOp room op))) := by
  refine ⟨fun room => ⟨normalizePhase_phase_playback room,
      normalizePhase_phase_drawing room⟩, ?_, deserializeRoom_phaseOk_wf, ?_⟩
  · intro newId theme fb t cache
    obtain ⟨hc, hp⟩ := makeRoom_fst newId theme fb t cache
    exact ⟨hp, by rw [wfCommitted, hc]; simp⟩
  · intro room op
    refine ⟨phaseOk_applyOp room op, fun hwf => ?_⟩
    rw [wfCommitted, applyOp_length room op]
    exact hwf

theorem phase_playback_iff_all_committed_witness :
    phaseOk (applyOp roomW (Op.submitOp 0 0 "TOKA" "data:image/png;base64,AA"))
    ∧ wfCommitted (applyOp roomW (Op.submitOp 0 0 "TOKA" "data:image/png;base64,AA")) :=
  ⟨(phase_playback_iff_all_committed.2.2.2 roomW
      (Op.submitOp 0 0 "TOKA" "data:image/png;base64,AA")).1,
   (phase_playback_iff_all_committed.2.2.2 roomW
      (Op.submitOp 0 0 "TOKA" "data:image/png;base64,AA")).2
     (by unfold wfCommitted; decide)⟩

/-- The rooms directory holding exactly the persisted pre-submit state of
`roomW`. -/
def diskW : Disk := [("ROOMAB1", (serializeRoom 0 roomW).2)]

/-- C1 counterexample: two `submit_frame` requests for the same room
(`ROOMAB1`) and the same frame index 0 both succeed.  The first succeeds
while its `saveRoom` disk write fails and the exception is swallowed
(line 418), leaving the stale pre-submit file on disk, so the disk equals
`diskW` afterwards; idle eviction (`evictCache` drops any idle room, with no
dirty check) then discards the mutated room object, and the next `getRoom`
reloads the room from that stale file — `deserializeRoom` yields the same
`roomId` with `committed[0] = false` again and the very same reservation
token still live — whereupon a second `submit_frame` for frame 0 of the
same room succeeds.  This refutes "at most one `submit_frame` ever succeeds
for i" for the room as identified by its roomId. -/
theorem submit_frame_twice_after_reload :
    submitSucceeded (submitFrameS false false 0 roomW diskW 0 "TOKA"
        "data:image/png;base64,AA").2.2 = true
    ∧ (submitFrameS false false 0 roomW diskW 0 "TOKA"
        "data:image/png;base64,AA").2.1 = diskW
    ∧ ((mapGet diskW "ROOMAB1").bind (deserializeRoom 5 "走る犬")).map
        (fun room =>
          (room.roomId, room.committed.getD 0 false,
           submitSucceeded (submitFrameS true true 5 room [] 0 "TOKA"
              "data:image/png;base64,AA").2.2))
      = some ("ROOMAB1", false, true) := by
  decide

/-- C3 counterexample: a `submit_frame` whose `saveRoom` disk write fails
(`w1 = false`; the exception is swallowed by `try{...}catch(e){}`) still
replies with the success envelopes only — no error is surfaced — while the
in-memory `committed[0]` is set and the disk still records it as false:
disk and memory are left divergent. -/
theorem submit_save_failure_replies_success :
    (submitFrameS false false 0 roomW diskW 0 "TOKA"
        "data:image/png;base64,AA").2.2
      = [OutMsg.frameCommitted "ROOMAB1" 0, OutMsg.submitted "ROOMAB1" 0]
    ∧ (submitFrameS false false 0 roomW diskW 0 "TOKA"
        "data:image/png;base64,AA").2.1 = diskW
    ∧ (submitFrameS false false 0 roomW diskW 0 "TOKA"
        "data:image/png;base64,AA").1.committed.getD 0 false = true
    ∧ ((mapGet diskW "ROOMAB1").map
        (fun o => (o.committed.getD []).getD 0 false)) = some false := by
  decide

/-- C3 amended: when persistence fails during a room save, the failure is
silently swallowed (`saveRoom` catches and ignores the exception): no error
is surfaced, the in-memory mutation is neither rolled back nor the room
reloaded, the rooms directory is left unchanged, and a `submit_frame` whose
save fails still replies with the success envelope while disk and memory
diverge. -/
theorem submit_save_failure_amended (t : Nat) (room : Room) (disk : Disk)
    (idx : Int) (tok d : String)
    (h : submitSucceeded (submitFrameS false false t room disk idx tok d).2.2 = true) :
    (submitFrameS false false t room disk idx tok d).2.1 = disk
    ∧ (submitFrameS false false t room disk idx tok d).1.committed
        = room.committed.set idx.toNat true :=
  ⟨submitFrameS_disk_unchanged t room disk idx tok d,
   ((submitFrameS_spec false false t room disk idx tok d).1 h).2.2.2⟩

theorem submit_save_failure_amended_witness :
    (submitFrameS false false 0 roomW diskW 0 "TOKA"
        "data:image/png;base64,AA").2.1 = diskW
    ∧ (submitFrameS false false 0 roomW diskW 0 "TOKA"
        "data:image/png;base64,AA").1.committed
        = roomW.committed.set (Int.toNat 0) true :=
  submit_save_failure_amended 0 roomW diskW 0 "TOKA" "data:image/png;base64,AA"
    (by decide)

/-- C4: the error envelope `join_by_id` sends for a quarantined room, for a
non-existent room, and for a completed room is in all three cases the same
`error` verb with the same message `"部屋が見つからない"` (room not found),
so the reply does not reveal which case applied. -/
theorem join_by_id_uniform_not_found (t : Nat) (quar : List String)
    (store : List (String × Room)) (ws1 ws2 ws3 rid1 rid2 rid3 mintTok : String)
    (room : Room)
    (h1a : normalizeRoomId rid1 ≠ "") (h1b : normalizeRoomId rid1 ∈ quar)
    (h2a : normalizeRoomId rid2 ≠ "") (h2b : normalizeRoomId rid2 ∉ quar)
    (h2c : mapGet store (normalizeRoomId rid2) = none)
    (h3a : normalizeRoomId rid3 ≠ "") (h3b : normalizeRoomId rid3 ∉ quar)
    (h3c : mapGet store (normalizeRoomId rid3) = some room)
    (h3d : room.committed.all (fun b => b) = true) :
    (joinByIdH t quar store ws1 rid1 mintTok).2.2
        = OutMsg.error "部屋が見つからない"
    ∧ (joinByIdH t quar store ws2 rid2 mintTok).2.2
        = OutMsg.error "部屋が見つからない"
    ∧ (joinByIdH t quar store ws3 rid3 mintTok).2.2
        = OutMsg.error "部屋が見つからない" := by
  have hp : (normalizePhase room).phase = "PLAYBACK" :=
    (normalizePhase_phase_playback room).mpr h3d
  refine ⟨?_, ?_, ?_⟩
  · simp [joinByIdH, h1a, h1b]
  · simp [joinByIdH, h2a, h2b, h2c]
  · simp [joinByIdH, joinByIdCore, h3a, h3b, h3c, hp]

theorem join_by_id_uniform_not_found_witness :
    (joinByIdH 0 ["ROOMQQ1"] [("ROOMAB1", roomDone)] "" "ROOMQQ1" "tk").2.2
        = OutMsg.error "部屋が見つからない"
    ∧ (joinByIdH 0 ["ROOMQQ1"] [("ROOMAB1", roomDone)] "" "ROOMXY9" "tk").2.2
        = OutMsg.error "部屋が見つからない"
    ∧ (joinByIdH 0 ["ROOMQQ1"] [("ROOMAB1", roomDone)] "" "ROOMAB1" "tk").2.2
        = OutMsg.error "部屋が見つからない" :=
  join_by_id_uniform_not_found 0 ["ROOMQQ1"] [("ROOMAB1", roomDone)]
    "" "" "" "ROOMQQ1" "ROOMXY9" "ROOMAB1" "tk" roomDone
    (by decide) (by decide) (by decide) (by decide) (by decide)
    (by decide) (by decide) (by decide) (by decide)


/-- The removal condition of one `cleanupReservations` iteration (lines
289-294): expired, or frame already committed, or frame index out of range.
Orphan-ness (`reservedByFrame` pointing to a different token) is *not* part
of the condition. -/
def removeB (t : Nat) (committed : List Bool) (r : Reservation) : Bool :=
  decide (r.expiresAt ≤ t)
  || (if ¬ r.frameIndex < 60 then false else committed.getD r.frameIndex false)
  || decide (¬ r.frameIndex < 60)

theorem removeB_iff (t : Nat) (c : List Bool) (r : Reservation) :
    removeB t c r = true
      ↔ (r.expiresAt ≤ t ∨ c.getD r.frameIndex false = true ∨ ¬ r.frameIndex < 60) := by
  unfold removeB
  by_cases hfi : r.frameIndex < 60 <;> simp [hfi]

theorem cleanupStep_fst (t : Nat) (c : List Bool)
    (st : List (String × Reservation) × List (Nat × String))
    (e : String × Reservation) :
    (cleanupStep t c st e).1
      = if removeB t c e.2 = true then mapDelete st.1 e.1 else st.1 := by
  by_cases hfi : e.2.frameIndex < 60 <;>
    by_cases hex : e.2.expiresAt ≤ t <;>
      by_cases hcm : c.getD e.2.frameIndex false = true <;>
        simp [cleanupStep, removeB, hfi, hex, hcm] <;> (try (split <;> rfl))

theorem cleanup_fold_fst (t : Nat) (c : List Bool) :
    ∀ (es : List (String × Reservation))
      (acc : List (String × Reservation) × List (Nat × String)),
    (es.foldl (cleanupStep t c) acc).1
      = es.foldl
          (fun resv e => if removeB t c e.2 = true then mapDelete resv e.1 else resv)
          acc.1
  | [], acc => rfl
  | e :: es, acc => by
    rw [List.foldl_cons, List.foldl_cons, cleanup_fold_fst t c es, cleanupStep_fst]

theorem mapDelete_eq_self {κ α : Type} [DecidableEq κ] (m : List (κ × α)) (k : κ)
    (h : k ∉ m.map Prod.fst) : mapDelete m k = m := by
  unfold mapDelete
  apply List.filter_eq_self.mpr
  intro a ha
  simp only [decide_eq_true_eq]
  intro hak
  exact h (hak ▸ List.mem_map_of_mem Prod.fst ha)

theorem mapDelete_append {κ α : Type} [DecidableEq κ] (a b : List (κ × α)) (k : κ) :
    mapDelete (a ++ b) k = mapDelete a k ++ mapDelete b k := by
  unfold mapDelete
  exact List.filter_append _ _

theorem mapDelete_cons_self {κ α : Type} [DecidableEq κ] (e : κ × α)
    (b : List (κ × α)) :
    mapDelete (e :: b) e.1 = mapDelete b e.1 := by
  unfold mapDelete
  rw [List.filter_cons]
  simp

theorem delete_fold_filter (t : Nat) (c : List Bool) :
    ∀ (todo done : List (String × Reservation)),
      ((done ++ todo).map Prod.fst).Nodup →
      todo.foldl
          (fun resv e => if removeB t c e.2 = true then mapDelete resv e.1 else resv)
          (done.filter (fun e => !(removeB t c e.2)) ++ todo)
        = (done ++ todo).filter (fun e => !(removeB t c e.2))
  | [], done => by intro _; simp
  | e :: todo, done => by
    intro hnd
    have hnd' : (((done ++ [e]) ++ todo).map Prod.fst).Nodup := by
      simpa [List.append_assoc] using hnd
    have hmem : e.1 ∉ (done.map Prod.fst) ∧ e.1 ∉ (todo.map Prod.fst) := by
      rw [List.map_append, List.nodup_append] at hnd
      obtain ⟨-, hnd2, hdisj⟩ := hnd
      refine ⟨fun hin => hdisj hin (by simp), ?_⟩
      simp only [List.map_cons, List.nodup_cons] at hnd2
      exact hnd2.1
    have hfk : e.1 ∉ ((done.filter (fun x => !(removeB t c x.2))).map Prod.fst) := by
      intro hin
      obtain ⟨x, hx, hxe⟩ := List.mem_map.mp hin
      exact hmem.1 (hxe ▸ List.mem_map_of_mem Prod.fst (List.mem_of_mem_filter hx))
    rw [List.foldl_cons]
    by_cases hr : removeB t c e.2 = true
    · rw [if_pos hr]
      have hdel : mapDelete (done.filter (fun x => !(removeB t c x.2)) ++ e :: todo) e.1
          = done.filter (fun x => !(removeB t c x.2)) ++ todo := by
        rw [mapDelete_append, mapDelete_cons_self,
          mapDelete_eq_self _ _ hfk, mapDelete_eq_self _ _ hmem.2]
      have hfe : (done ++ [e]).filter (fun x => !(removeB t c x.2))
          = done.filter (fun x => !(removeB t c x.2)) := by
        rw [List.filter_append, List.filter_cons]
        simp [hr]
      rw [hdel, ← hfe]
      rw [delete_fold_filter t c todo (done ++ [e]) hnd']
      rw [List.append_assoc, List.singleton_append]
    · rw [if_neg hr]
      have hrf : removeB t c e.2 = false := by
        simpa using hr
      have hfe : (done ++ [e]).filter (fun x => !(removeB t c x.2))
          = done.filter (fun x => !(removeB t c x.2)) ++ [e] := by
        rw [List.filter_append, List.filter_cons]
        simp [hrf]
      have hacc : done.filter (fun x => !(removeB t c x.2)) ++ e :: todo
          = (done ++ [e]).filter (fun x => !(removeB t c x.2)) ++ todo := by
        rw [hfe, List.append_assoc, List.singleton_append]
      rw [hacc]
      rw [delete_fold_filter t c todo (done ++ [e]) hnd']
      rw [List.append_assoc, List.singleton_append]

theorem cleanup_reservations_filter (t : Nat) (room : Room)
    (hnd : (room.reservations.map Prod.fst).Nodup) :
    (cleanupReservations t room).reservations
      = room.reservations.filter (fun e => !(removeB t room.committed e.2)) := by
  show (room.reservations.foldl (cleanupStep t room.committed)
      (room.reservations, room.reservedByFrame)).1
    = room.reservations.filter (fun e => !(removeB t room.committed e.2))
  rw [cleanup_fold_fst]
  simpa using delete_fold_filter t room.committed room.reservations [] (by simpa using hnd)

/-- The C5 room: two live reservations for frame 3 persisted on disk; the
`reservedByFrame` rebuild of `deserializeRoom` lets the later token win, so
the earlier one becomes an orphan. -/
def objC5 : RoomJson :=
  { roomId := "ROOMAB1"
    theme := "T"
    frames := none
    committed := none
    createdAt := 1
    updatedAt := 1
    phase := ""
    reservations := some [("TOK1", 3, 1000), ("TOK2", 3, 1000)] }

/-- C5 counterexample: deserializing `objC5` at time 10 produces a room in
which `reservations` holds the live orphan `TOK1` for frame 3 while
`reservedByFrame[3] = TOK2`, even though `deserializeRoom` itself already ran
the sweep; running `cleanupReservations` (sweep) again still does not remove
the orphan — contradicting the claim that sweep removes every orphan. -/
theorem sweep_keeps_live_orphan :
    ((deserializeRoom 10 "テーマ" objC5).map (fun room =>
      (mapGet room.reservations "TOK1",
       mapGet room.reservedByFrame 3,
       room.committed.getD 3 false,
       mapGet (cleanupReservations 10 room).reservations "TOK1",
       mapGet (cleanupReservations 10 room).reservedByFrame 3)))
    = some (some ⟨3, 1000⟩, some "TOK2", false, some ⟨3, 1000⟩, some "TOK2") := by
  decide

/-- C5 amended: `cleanupReservations` removes exactly the reservations that
are expired, or whose frame is already committed, or whose frame index is
out of range; a live orphan on an uncommitted in-range frame (its frame
mapped in `reservedByFrame` to a different token) is retained in
`reservations`, not removed. -/
theorem sweep_removal_characterization (t : Nat) (room : Room)
    (hnd : (room.reservations.map Prod.fst).Nodup) (tok : String)
    (r : Reservation) :
    (tok, r) ∈ (cleanupReservations t room).reservations
      ↔ (tok, r) ∈ room.reservations
        ∧ ¬ (r.expiresAt ≤ t ∨ room.committed.getD r.frameIndex false = true
              ∨ ¬ r.frameIndex < 60) := by
  rw [cleanup_reservations_filter t room hnd, List.mem_filter]
  constructor
  · rintro ⟨hmem, hkeep⟩
    refine ⟨hmem, fun hc => ?_⟩
    rw [(removeB_iff t room.committed r).mpr hc] at hkeep
    exact absurd hkeep (by simp)
  · rintro ⟨hmem, hnc⟩
    refine ⟨hmem, ?_⟩
    cases hB : removeB t room.committed r with
    | false => simp [hB]
    | true => exact absurd ((removeB_iff t room.committed r).mp hB) hnc

/-- The orphan room used to instantiate the sweep characterization. -/
def roomOrphan : Room :=
  { roomW with
    reservations := [("TOK1", ⟨3, 1000⟩), ("TOK2", ⟨3, 1000⟩)]
    reservedByFrame := [(3, "TOK2")] }

theorem sweep_removal_characterization_witness :
    ("TOK1", (⟨3, 1000⟩ : Reservation)) ∈ (cleanupReservations 10 roomOrphan).reservations
      ↔ ("TOK1", (⟨3, 1000⟩ : Reservation)) ∈ roomOrphan.reservations
        ∧ ¬ ((1000 : Nat) ≤ 10 ∨ roomOrphan.committed.getD 3 false = true
              ∨ ¬ (3 : Nat) < 60) :=
  sweep_removal_characterization 10 roomOrphan (by decide) "TOK1" ⟨3, 1000⟩


theorem mapGet_mapSet_self {κ α : Type} [DecidableEq κ] :
    ∀ (m : List (κ × α)) (k : κ) (v : α), mapGet (mapSet m k v) k = some v
  | [], k, v => by simp [mapGet, mapSet]
  | e :: m, k, v => by
    by_cases h : e.1 = k
    · simp [mapGet, mapSet, h]
    · have ih := mapGet_mapSet_self m k v
      by_cases hs : (m.find? (fun x => decide (x.1 = k))).isSome
      · simp only [mapGet, mapSet, List.find?_cons, h] at ih ⊢
        simp [h, hs] at ih ⊢
        exact ih
      · simp only [mapGet, mapSet, List.find?_cons, h] at ih ⊢
        simp [h, hs] at ih ⊢
        exact ih

/-- A pre-existing room stored under the id that a later mint collides with. -/
def roomA : Room := { roomW with theme := "OLD" }

/-- C6 counterexample: `id7` applied to the digit expansion of
`Math.random() = 0.5` (the single base-36 digit 18, i.e. `"0.i"`) yields the
one-character id `"I"`, not 7 characters; and `makeRoom`, minting an id that
already names an existing room, performs no collision check: it creates the
room anyway and overwrites the cached room under that id. -/
theorem room_id_mint_counterexample :
    id7 [(⟨18, by decide⟩ : Fin 36)] = "I"
    ∧ (id7 [(⟨18, by decide⟩ : Fin 36)]).length = 1
    ∧ id7 [⟨10, by decide⟩, ⟨11, by decide⟩, ⟨12, by decide⟩, ⟨13, by decide⟩,
        ⟨14, by decide⟩, ⟨15, by decide⟩, ⟨16, by decide⟩] = "ABCDEFG"
    ∧ mapGet [("ABCDEFG", roomA)] "ABCDEFG" = some roomA
    ∧ (makeRoom "ABCDEFG" "T" "F" 5 [("ABCDEFG", roomA)]).1.roomId = "ABCDEFG"
    ∧ mapGet (makeRoom "ABCDEFG" "T" "F" 5 [("ABCDEFG", roomA)]).2 "ABCDEFG"
        ≠ some roomA := by
  decide

/-- C6 amended: a minted room id consists only of characters from `[A-Z0-9]`
and has length at most 7 (exactly 7 only when the base-36 expansion of the
random value has at least 7 digits); `makeRoom` performs no collision
detection or retry: it creates the room under the minted id unconditionally,
storing it via `Map.set` and thereby overwriting any existing room cached
under the same id. -/
theorem room_id_mint_amended (ds : List (Fin 36)) (theme fb : String) (t : Nat)
    (cache : List (String × Room)) :
    (id7 ds).length ≤ 7
    ∧ (∀ c ∈ (id7 ds).data, isRoomIdChar c = true)
    ∧ (makeRoom (id7 ds) theme fb t cache).1.roomId = id7 ds
    ∧ (makeRoom (id7 ds) theme fb t cache).2
        = mapSet cache (id7 ds) (makeRoom (id7 ds) theme fb t cache).1
    ∧ mapGet (makeRoom (id7 ds) theme fb t cache).2 (id7 ds)
        = some (makeRoom (id7 ds) theme fb t cache).1 := by
  have hall : ∀ d : Fin 36, isRoomIdChar (jsToUpperChar (base36Char d)) = true := by
    decide
  refine ⟨?_, ?_, ?_, rfl, mapGet_mapSet_self cache (id7 ds) _⟩
  · show (((ds.map base36Char).take 7).map jsToUpperChar).length ≤ 7
    rw [List.length_map]
    exact le_trans (List.length_take_le 7 _) (le_refl 7)
  · intro c hc
    obtain ⟨x, hx, rfl⟩ := List.mem_map.mp hc
    obtain ⟨d, hd, rfl⟩ := List.mem_map.mp (List.mem_of_mem_take hx)
    exact hall d
  · simp [makeRoom]

theorem room_id_mint_amended_witness :
    (id7 [(⟨18, by decide⟩ : Fin 36)]).length ≤ 7
    ∧ (∀ c ∈ (id7 [(⟨18, by decide⟩ : Fin 36)]).data, isRoomIdChar c = true)
    ∧ (makeRoom (id7 [(⟨18, by decide⟩ : Fin 36)]) "T" "F" 0 []).1.roomId
        = id7 [(⟨18, by decide⟩ : Fin 36)]
    ∧ (makeRoom (id7 [(⟨18, by decide⟩ : Fin 36)]) "T" "F" 0 []).2
        = mapSet [] (id7 [(⟨18, by decide⟩ : Fin 36)])
            (makeRoom (id7 [(⟨18, by decide⟩ : Fin 36)]) "T" "F" 0 []).1
    ∧ mapGet (makeRoom (id7 [(⟨18, by decide⟩ : Fin 36)]) "T" "F" 0 []).2
        (id7 [(⟨18, by decide⟩ : Fin 36)])
        = some (makeRoom (id7 [(⟨18, by decide⟩ : Fin 36)]) "T" "F" 0 []).1 :=
  room_id_mint_amended [⟨18, by decide⟩] "T" "F" 0 []

/-- A token character is the separator or a base-36 digit (lower case). -/
def isTokenChar (c : Char) : Bool :=
  c = '-' ∨ ('0' ≤ c ∧ c ≤ '9') ∨ ('a' ≤ c ∧ c ≤ 'z')

/-- An open drawing room with no reservation yet. -/
def roomFresh : Room := { roomW with reservations := [], reservedByFrame := [] }

/-- C7 counterexample: when both `Math.random()` calls of `token()` yield
`0.5` (base-36 `"0.i"`), the reservation token minted and recorded by the
join handler is `"i-i"` — 3 characters, not at least 16. -/
theorem token_short_counterexample :
    token [(⟨18, by decide⟩ : Fin 36)] [⟨18, by decide⟩] = "i-i"
    ∧ (token [(⟨18, by decide⟩ : Fin 36)] [⟨18, by decide⟩]).length = 3
    ∧ (joinByIdCore 0 (token [⟨18, by decide⟩] [⟨18, by decide⟩]) roomFresh).2
        = OutMsg.roomJoined "ROOMAB1" "走る犬" 0
            (token [⟨18, by decide⟩] [⟨18, by decide⟩]) 180000
            (List.replicate 60 false)
    ∧ ¬ 16 ≤ (token [(⟨18, by decide⟩ : Fin 36)] [⟨18, by decide⟩]).length := by
  decide

/-- C7 amended: a minted reservation token is the two base-36 fraction
expansions joined by `"-"`: its length is exactly `|ds1| + 1 + |ds2|` — at
least 1, but with no 16-character lower bound — and its characters are
base-36 digits or the separator. -/
theorem token_shape_amended (ds1 ds2 : List (Fin 36)) :
    (token ds1 ds2).length = ds1.length + 1 + ds2.length
    ∧ 1 ≤ (token ds1 ds2).length
    ∧ ∀ c ∈ (token ds1 ds2).data, isTokenChar c = true := by
  have hlen : (token ds1 ds2).length = ds1.length + 1 + ds2.length := by
    show (frac36String ds1 ++ "-" ++ frac36String ds2).length = _
    rw [String.length_append, String.length_append]
    show (ds1.map base36Char).length + 1 + (ds2.map base36Char).length = _
    rw [List.length_map, List.length_map]
  have hchar : ∀ d : Fin 36, isTokenChar (base36Char d) = true := by decide
  refine ⟨hlen, by omega, ?_⟩
  intro c hc
  unfold token at hc
  rw [String.data_append, String.data_append] at hc
  rcases List.mem_append.mp hc with hc1 | hc2
  · rcases List.mem_append.mp hc1 with hc3 | hc4
    · obtain ⟨d, hd, rfl⟩ := List.mem_map.mp hc3
      exact hchar d
    · have : c = '-' := by
        simpa using hc4
      rw [this]
      decide
  · obtain ⟨d, hd, rfl⟩ := List.mem_map.mp hc2
    exact hchar d


theorem insertSorted_cons_of_le (s x : String) (xs : List String) (h : s ≤ x) :
    insertSorted s (x :: xs) = s :: x :: xs := by
  unfold insertSorted
  rw [if_pos h]

theorem insertSorted_append_of_lt (s : String) :
    ∀ (l : List String), (∀ x ∈ l, x < s) → insertSorted s l = l ++ [s]
  | [], _ => rfl
  | x :: xs, h => by
    unfold insertSorted
    rw [if_neg (not_le.mpr (h x (by simp)))]
    rw [insertSorted_append_of_lt s xs (fun y hy => h y (by simp [hy]))]
    rfl

theorem sortStrings_of_pairwise :
    ∀ (l : List String), l.Pairwise (fun a b => a ≤ b) → sortStrings l = l
  | [], _ => rfl
  | x :: xs, h => by
    obtain ⟨h1, h2⟩ := List.pairwise_cons.mp h
    show insertSorted x (sortStrings xs) = x :: xs
    rw [sortStrings_of_pairwise xs h2]
    cases xs with
    | nil => rfl
    | cons y ys => exact insertSorted_cons_of_le x y ys (h1 y (by simp))

theorem pruneBackups_sorted (keep : Nat) (l : List String)
    (hs : l.Pairwise (fun a b => a < b))
    (hv : ∀ x ∈ l, strStartsWith x "." = false) :
    pruneBackups keep l = l.drop (l.length - keep) := by
  unfold pruneBackups
  have hf : l.filter (fun n => ! strStartsWith n ".") = l :=
    List.filter_eq_self.mpr (fun a ha => by simp [hv a ha])
  rw [hf, sortStrings_of_pairwise l (hs.imp le_of_lt)]

theorem runBackups_drop (keep : Nat) (hkeep : 1 ≤ keep) (stamps : List String) :
    stamps.Pairwise (fun a b => a < b) →
    (∀ x ∈ stamps, strStartsWith x "." = false) →
    runBackups keep stamps = stamps.drop (stamps.length - keep) := by
  induction stamps using List.reverseRecOn with
  | nil => intro _ _; simp [runBackups]
  | append_singleton p s ih =>
    intro hp hv
    have hpp : p.Pairwise (fun a b => a < b) := (List.pairwise_append.mp hp).1
    have hvp : ∀ x ∈ p, strStartsWith x "." = false :=
      fun x hx => hv x (List.mem_append.mpr (Or.inl hx))
    have hq := ih hpp hvp
    have hlt : ∀ x ∈ p.drop (p.length - keep), x < s := fun x hx =>
      (List.pairwise_append.mp hp).2.2 x (List.drop_subset _ p hx) s (by simp)
    have hqs : (p.drop (p.length - keep)).Pairwise (fun a b => a < b) :=
      hpp.sublist (List.drop_sublist _ _)
    have hcycle : runBackups keep (p ++ [s])
        = pruneBackups keep (s :: p.drop (p.length - keep)) := by
      show (p ++ [s]).foldl (doBackupCycle keep) [] = _
      rw [List.foldl_append]
      show doBackupCycle keep (runBackups keep p) s = _
      rw [hq]
      rfl
    have hvq : ∀ x ∈ s :: p.drop (p.length - keep), strStartsWith x "." = false := by
      intro x hx
      rcases List.mem_cons.mp hx with rfl | hx2
      · exact hv x (by simp)
      · exact hvp x (List.drop_subset _ p hx2)
    have hf : (s :: p.drop (p.length - keep)).filter (fun n => ! strStartsWith n ".")
        = s :: p.drop (p.length - keep) :=
      List.filter_eq_self.mpr (fun a ha => by simp [hvq a ha])
    have hsort : sortStrings (s :: p.drop (p.length - keep))
        = p.drop (p.length - keep) ++ [s] := by
      show insertSorted s (sortStrings (p.drop (p.length - keep))) = _
      rw [sortStrings_of_pairwise _ (hqs.imp le_of_lt)]
      exact insertSorted_append_of_lt s _ hlt
    have hpr : pruneBackups keep (s :: p.drop (p.length - keep))
        = (p.drop (p.length - keep) ++ [s]).drop
            ((p.drop (p.length - keep) ++ [s]).length - keep) := by
      simp only [pruneBackups]
      rw [hf, hsort]
    rw [hcycle, hpr]
    have hmq : (p.drop (p.length - keep)).length = p.length - (p.length - keep) :=
      List.length_drop _ _
    by_cases hc : p.length < keep
    · have h0 : p.length - keep = 0 := by omega
      have h1 : (p.drop (p.length - keep) ++ [s]).length - keep = 0 := by
        rw [List.length_append, hmq]
        simp only [List.length_cons, List.length_nil]
        omega
      have h2 : (p ++ [s]).length - keep = 0 := by
        rw [List.length_append]
        simp only [List.length_cons, List.length_nil]
        omega
      rw [h1, h2, List.drop_zero, List.drop_zero, h0, List.drop_zero]
    · push_neg at hc
      have hm : (p.drop (p.length - keep)).length = keep := by omega
      have h1 : (p.drop (p.length - keep) ++ [s]).length - keep = 1 := by
        rw [List.length_append, hm]
        simp only [List.length_cons, List.length_nil]
        omega
      rw [h1, List.drop_append_of_le_length (by omega), List.drop_drop]
      have h2 : (p ++ [s]).length - keep = p.length + 1 - keep := by
        rw [List.length_append]
        simp only [List.length_cons, List.length_nil]
        try omega
      rw [h2, List.drop_append_of_le_length (by omega)]
      have h3 : p.length - keep + 1 = p.length + 1 - keep := by omega
      rw [h3]

/-- C9: starting from an empty `backups/` directory, after `keep + k`
(`k ≥ 1`) completed non-empty backup cycles with strictly increasing
timestamp names, exactly `keep` backup directories remain and they are the
`keep` lexically greatest (most recent) of all minted stamps; and on any
sorted directory listing, the prune step deletes precisely the lexically
smallest directories beyond `keep`. -/
theorem backup_rotation_keeps_latest (keep k : Nat) (stamps : List String)
    (hkeep : 1 ≤ keep) (hk : 1 ≤ k) (hlen : stamps.length = keep + k)
    (hsorted : stamps.Pairwise (fun a b => a < b))
    (hvis : ∀ s ∈ stamps, strStartsWith s "." = false) :
    runBackups keep stamps = stamps.drop k
    ∧ (runBackups keep stamps).length = keep
    ∧ (∀ l : List String, l.Pairwise (fun a b => a < b) →
        (∀ x ∈ l, strStartsWith x "." = false) →
        pruneBackups keep l = l.drop (l.length - keep)) := by
  have h1 := runBackups_drop keep hkeep stamps hsorted hvis
  have hd : stamps.length - keep = k := by omega
  refine ⟨by rw [h1, hd], ?_, fun l hl hv => pruneBackups_sorted keep l hl hv⟩
  rw [h1, hd, List.length_drop]
  omega

theorem backup_rotation_keeps_latest_witness :
    runBackups 2 ["A", "B", "C"] = ["A", "B", "C"].drop 1
    ∧ (runBackups 2 ["A", "B", "C"]).length = 2
    ∧ (∀ l : List String, l.Pairwise (fun a b => a < b) →
        (∀ x ∈ l, strStartsWith x "." = false) →
        pruneBackups 2 l = l.drop (l.length - 2)) :=
  backup_rotation_keeps_latest 2 1 ["A", "B", "C"] (by decide) (by decide)
    (by decide)
    (by
      refine List.Pairwise.cons ?_ (List.Pairwise.cons ?_
        (List.Pairwise.cons ?_ List.Pairwise.nil))
      · intro b hb
        rcases List.mem_cons.mp hb with rfl | hb2
        · exact String.lt_iff_toList_lt.mpr (by decide)
        · rcases List.mem_cons.mp hb2 with rfl | hb3
          · exact String.lt_iff_toList_lt.mpr (by decide)
          · simp at hb3
      · intro b hb
        rcases List.mem_cons.mp hb with rfl | hb2
        · exact String.lt_iff_toList_lt.mpr (by decide)
        · simp at hb2
      · intro b hb
        simp at hb)
    (by decide)

theorem token_shape_amended_witness :
    (token [(⟨18, by decide⟩ : Fin 36)] [⟨18, by decide⟩]).length = 1 + 1 + 1
    ∧ 1 ≤ (token [(⟨18, by decide⟩ : Fin 36)] [⟨18, by decide⟩]).length
    ∧ ∀ c ∈ (token [(⟨18, by decide⟩ : Fin 36)] [⟨18, by decide⟩]).data,
        isTokenChar c = true :=
  token_shape_amended [⟨18, by decide⟩] [⟨18, by decide⟩]

/-- C8 counterexample: a `join_room` editing request (reservation token
supplied, `view` not true) for an existing completed room is answered with
an error, yet the connection's `roomId` attachment — empty before the
request — has been changed to the room's id (the source assigns
`ws._roomId` before the phase and reservation checks); likewise for an
expired-reservation error. -/
theorem join_room_attachment_counterexample :
    (joinRoomH 0 [] [("ROOMAB1", roomDone)] "" "ROOMAB1" false "SOMETOK").2.2
        = OutMsg.error "この部屋は編集できません（完成済み）"
    ∧ (joinRoomH 0 [] [("ROOMAB1", roomDone)] "" "ROOMAB1" false "SOMETOK").1
        = "ROOMAB1"
    ∧ ¬ (joinRoomH 0 [] [("ROOMAB1", roomDone)] "" "ROOMAB1" false "SOMETOK").1
        = ""
    ∧ (joinRoomH 200 [] [("ROOMAB1", roomW)] "" "ROOMAB1" false "TOKA").2.2
        = OutMsg.error "予約が無効/期限切れです。もう一度参加してね"
    ∧ (joinRoomH 200 [] [("ROOMAB1", roomW)] "" "ROOMAB1" false "TOKA").1
        = "ROOMAB1" := by
  decide

/-- C8 amended: `join_room` updates the connection's `roomId` attachment as
soon as it resolves an existing, non-quarantined room — before the
DRAWING-phase and reservation checks — so an editing join answered with a
phase or reservation error still leaves the attachment set to that room;
only the errors raised before resolution (invalid roomId, quarantined, not
found) leave the attachment unchanged. -/
theorem join_room_attachment_amended (t : Nat) (quar : List String)
    (store : List (String × Room)) (wsRoomId dRoomId : String)
    (viewIsTrue : Bool) (rtok : String) (rid : String)
    (hrid : rid = normalizeRoomId (if dRoomId ≠ "" then dRoomId else wsRoomId)) :
    ((rid = "" ∨ rid ∈ quar ∨ mapGet store rid = none) →
      (joinRoomH t quar store wsRoomId dRoomId viewIsTrue rtok).1 = wsRoomId)
    ∧ (∀ room0 : Room, rid ≠ "" → rid ∉ quar → mapGet store rid = some room0 →
        (joinRoomH t quar store wsRoomId dRoomId viewIsTrue rtok).1
          = room0.roomId) := by
  constructor
  · intro h
    simp only [joinRoomH]
    rw [← hrid]
    by_cases h0 : rid = ""
    · rw [if_pos h0]
    · rw [if_neg h0]
      by_cases h1 : rid ∈ quar
      · rw [if_pos h1]
      · rw [if_neg h1]
        rcases h with h | h | h
        · exact absurd h h0
        · exact absurd h h1
        · rw [h]
  · intro room0 hne hq hsome
    simp only [joinRoomH]
    rw [← hrid]
    rw [if_neg hne, if_neg hq, hsome]

theorem join_room_attachment_amended_witness :
    ((("ROOMAB1" : String) = "" ∨ ("ROOMAB1" : String) ∈ ([] : List String)
        ∨ mapGet [("ROOMAB1", roomDone)] "ROOMAB1" = none) →
      (joinRoomH 0 [] [("ROOMAB1", roomDone)] "" "ROOMAB1" false "SOMETOK").1 = "")
    ∧ (∀ room0 : Room, ("ROOMAB1" : String) ≠ ""
        → ("ROOMAB1" : String) ∉ ([] : List String)
        → mapGet [("ROOMAB1", roomDone)] "ROOMAB1" = some room0 →
        (joinRoomH 0 [] [("ROOMAB1", roomDone)] "" "ROOMAB1" false "SOMETOK").1
          = room0.roomId) :=
  join_room_attachment_amended 0 [] [("ROOMAB1", roomDone)] "" "ROOMAB1"
    false "SOMETOK" "ROOMAB1" (by decide)

/-- C10: for an existing, non-quarantined room, a `join_room` request whose
`view` field is not true and that supplies no `reservationToken` succeeds
with a `room_state` reply and attaches the connection, regardless of the
room's phase — the DRAWING-phase and reservation checks run only when a
token is supplied — so a completed (PLAYBACK) room can be attached for
streaming without `view: true`. -/
theorem join_room_no_token_succeeds (t : Nat) (quar : List String)
    (store : List (String × Room)) (wsRoomId dRoomId rid : String)
    (room0 : Room)
    (hrid : rid = normalizeRoomId (if dRoomId ≠ "" then dRoomId else wsRoomId))
    (hne : rid ≠ "") (hq : rid ∉ quar) (hsome : mapGet store rid = some room0) :
    (joinRoomH t quar store wsRoomId dRoomId false "").2.2
      = OutMsg.roomStateMsg (roomStateF t (normalizePhase room0)).2
    ∧ (joinRoomH t quar store wsRoomId dRoomId false "").1 = room0.roomId := by
  constructor <;>
  · simp only [joinRoomH]
    rw [← hrid]
    rw [if_neg hne, if_neg hq, hsome]
    try simp [joinRoomCore]

theorem join_room_no_token_succeeds_witness :
    (joinRoomH 7 [] [("ROOMAB1", roomDone)] "" "ROOMAB1" false "").2.2
      = OutMsg.roomStateMsg (roomStateF 7 (normalizePhase roomDone)).2
    ∧ (joinRoomH 7 [] [("ROOMAB1", roomDone)] "" "ROOMAB1" false "").1
      = roomDone.roomId :=
  join_room_no_token_succeeds 7 [] [("ROOMAB1", roomDone)] "" "ROOMAB1"
    "ROOMAB1" roomDone (by decide) (by decide) (by decide) (by decide)

end Anim5s
